import Mathlib

/-!
Verification development for the Vaisala ceilometer decoding and screening
pipeline of `cloudnetpy/ceilo.py` (legacy cloudnetpy).

The numeric embedding uses exact rationals (`ℚ`) for the floating-point
arrays of the source, so every statement is about exact arithmetic.
`np.std` is the square root of the population variance; all comparisons the
source makes against a standard deviation are carried here on the squares
(variances), which is an exact reformulation because both sides of each such
comparison are nonnegative for every parameter set the program uses
(all noise floors and the SNR limit are positive).  Matrices are lists of
row lists; out-of-range reads default to `0` (resp. `[]`), mirroring the
fact that the source only ever indexes in range.
-/

set_option autoImplicit false

namespace Ceilo

/-- A 2-D backscatter array: profiles × range gates, exact rationals. -/
abbrev Mat : Type := List (List ℚ)

/-- Source: `M2KM = 0.001` from the source. -/
def m2km : ℚ := 1 / 1000

/-- The three supported ceilometer models (`cl51`, `cl31`, `ct25k`). -/
inductive CeiloModel : Type
  | cl51
  | cl31
  | ct25k
deriving DecidableEq, Repr

/-- Source: `noise_params` tuple of a model:
`(n_gates, variance limit, saturation noise, (noise_min pair))`.
The pair is stored exactly as the source tuple literal. -/
structure NoiseParams : Type where
  nGates : ℕ
  varLim : ℚ
  saturationNoise : ℚ
  noiseMin : ℚ × ℚ
deriving DecidableEq, Repr

/-- Source: `_hex_conversion_params` of a model:
`(n_chars, overflow mask, overflow subtrahend)`. -/
structure HexParams : Type where
  nChars : ℕ
  mask : ℕ
  sub : ℤ
deriving DecidableEq, Repr

/-- Source: `ClCeilo.__init__`: `noise_params = (100, 1e-12, 3e-6, (1.1e-8, 2.9e-8))`. -/
def clNoiseParams : NoiseParams :=
  ⟨100, 1 / 10 ^ 12, 3 / 10 ^ 6, (11 / 10 ^ 9, 29 / 10 ^ 9)⟩

/-- Source: `Ct25k.__init__`: `noise_params = (40, 2e-14, 0.3e-6, (3e-10, 1.5e-9))`. -/
def ct25kNoiseParams : NoiseParams :=
  ⟨40, 2 / 10 ^ 14, 3 / 10 ^ 7, (3 / 10 ^ 10, 15 / 10 ^ 10)⟩

/-- Source: `ClCeilo.__init__`: `_hex_conversion_params = (5, 524288, 1048576)`. -/
def clHexParams : HexParams := ⟨5, 524288, 1048576⟩

/-- Source: `Ct25k.__init__`: `_hex_conversion_params = (4, 32768, 65536)`. -/
def ct25kHexParams : HexParams := ⟨4, 32768, 65536⟩

/-- Source: `ClCeilo.__init__`: `_backscatter_scale_factor = 1e8`. -/
def clScaleFactor : ℚ := 10 ^ 8

/-- Source: `Ct25k.__init__`: `_backscatter_scale_factor = 1e7`. -/
def ct25kScaleFactor : ℚ := 10 ^ 7

/-! ### Generic list helpers (entry access with defaults) -/

/-- Entry `(i, j)` of a matrix, `0` when out of range. -/
def ent (m : Mat) (i j : ℕ) : ℚ := (m.getD i []).getD j 0

/-- Entry `(i, j)` of an integer matrix, `0` when out of range. -/
def entZ (m : List (List ℤ)) (i j : ℕ) : ℤ := (m.getD i []).getD j 0

/-- Index-aware map over a list, starting the index count at `k`. -/
def mapIdxFrom {α β : Type} (f : ℕ → α → β) : ℕ → List α → List β
  | _, [] => []
  | k, a :: rest => f k a :: mapIdxFrom f (k + 1) rest

/-! ### Hexadecimal parsing (`int(chunk, 16)` on pure hex-digit chunks) -/

/-- Value of one hexadecimal digit, `none` for a non-hex character. -/
def hexDigit (c : Char) : Option ℕ :=
  if '0' ≤ c ∧ c ≤ '9' then some (c.toNat - '0'.toNat)
  else if 'a' ≤ c ∧ c ≤ 'f' then some (c.toNat - 'a'.toNat + 10)
  else if 'A' ≤ c ∧ c ≤ 'F' then some (c.toNat - 'A'.toNat + 10)
  else none

/-- Source: `int(s, 16)` on a chunk of hex digits; `none` (Python `ValueError`) for
an empty chunk or any non-hex character. -/
def parseHex (s : String) : Option ℕ :=
  match s.toList with
  | [] => none
  | l => l.foldlM (fun acc c => (hexDigit c).map (fun d => 16 * acc + d)) 0

/-- Python slice `s[a:b]` (with `0 ≤ a ≤ b`). -/
def strSlice (s : String) (a b : ℕ) : String :=
  String.mk ((s.toList.drop a).take (b - a))

/-! ### Backscatter decoder (`VaisalaCeilo._read_backscatter`) -/

/-- The chunks `line[i:i+n_chars]` for `i in range(0, n_gates*n_chars, n_chars)`. -/
def hexChunks (nChars nGates : ℕ) (line : String) : List String :=
  (List.range nGates).map (fun g => strSlice line (g * nChars) (g * nChars + nChars))

/-- One row of the raw integer matrix: all chunks of the line parsed in base
16; on any `ValueError` the whole row is left at its zero-initialised
default (the source prints the error and moves on). -/
def parseProfile (nChars nGates : ℕ) (line : String) : List ℤ :=
  match (hexChunks nChars nGates line).mapM parseHex with
  | some vals => vals.map Int.ofNat
  | none => List.replicate nGates 0

/-- Source: `n_gates = int(len(lines[0])/n_chars)`. -/
def backscatterGates (hp : HexParams) (lines : List String) : ℕ :=
  (lines.headD "").length / hp.nChars

/-- The raw integer matrix `profiles` before overflow correction. -/
def rawIntProfiles (hp : HexParams) (lines : List String) : List (List ℤ) :=
  lines.map (parseProfile hp.nChars (backscatterGates hp lines))

/-- Source: `profiles[ind] -= hex_params[2]` where
`ind = np.where(profiles & hex_params[1] != 0)`. -/
def overflowCorrect (hp : HexParams) (v : ℤ) : ℤ :=
  if Int.land v (hp.mask : ℤ) ≠ 0 then v - hp.sub else v

/-- The corrected integer matrix. -/
def correctedProfiles (hp : HexParams) (lines : List String) : List (List ℤ) :=
  (rawIntProfiles hp lines).map (List.map (overflowCorrect hp))

/-- Source: `VaisalaCeilo._read_backscatter`: hex-parse, overflow-correct, then divide
by the model's `_backscatter_scale_factor`. -/
def readBackscatter (hp : HexParams) (scale : ℚ) (lines : List String) : Mat :=
  (correctedProfiles hp lines).map (List.map (fun (v : ℤ) => (v : ℚ) / scale))

/-! ### Model detector (`_find_ceilo_model`, `_initialize_ceilo`) -/

/-- Source: `is_empty_line`: a line that is exactly `"\n"` or `"\r\n"`. -/
def isEmptyLine (line : String) : Bool :=
  line = "\n" ∨ line = "\r\n"

/-- Helper for `_find_first_empty_line`: 1-based counting starting at `k`. -/
def firstEmptyFrom : ℕ → List String → ℕ
  | k, [] => k
  | k, l :: rest => if isEmptyLine l then k else firstEmptyFrom (k + 1) rest

/-- Source: `_find_first_empty_line`: 1-based index of the first empty line
(`number_of_lines + 1` when there is none). -/
def findFirstEmptyLine (lines : List String) : ℕ :=
  firstEmptyFrom 1 lines

/-- Source: `linecache.getline(file, n)`: 1-based line access, `""` out of range. -/
def getline (lines : List String) (n : ℕ) : String :=
  lines.getD (n - 1) ""

/-- The model-detection substring
`linecache.getline(file, first_empty_line + 2)[1:5]`. -/
def ceiloHint (lines : List String) : String :=
  strSlice (getline lines (findFirstEmptyLine lines + 2)) 1 5

/-- Source: `_find_ceilo_model`: maps the hint to a model name, `none` otherwise. -/
def findCeiloModel (lines : List String) : Option CeiloModel :=
  if ceiloHint lines = "CL01" then some .cl51
  else if ceiloHint lines = "CL02" then some .cl31
  else if ceiloHint lines = "CT02" then some .ct25k
  else none

/-- Source: `_initialize_ceilo`: dispatch on the detected model; the final
`return Ct25k(file)` is reached both for `'ct25k'` and for `None`. -/
def initializeCeilo (lines : List String) : CeiloModel :=
  match findCeiloModel lines with
  | some .cl51 => .cl51
  | some .cl31 => .cl31
  | _ => .ct25k

/-! ### Header line 1 and the message number
(`_read_header_line_1`, `_get_message_number`) -/

/-- Source: `_split_string`: the slices `string[n:m]` for consecutive index pairs. -/
def splitString (s : String) (indices : List ℕ) : List String :=
  (indices.zip indices.tail).map (fun p => strSlice s p.1 p.2)

/-- The slicing offsets of header line 1: `[1, 3, 4, 7, 8, 9]` when
`'cl' in self.model`, else `[1, 3, 4, 6, 7, 8]`. -/
def headerLine1Indices (model : CeiloModel) : List ℕ :=
  match model with
  | .cl51 => [1, 3, 4, 7, 8, 9]
  | .cl31 => [1, 3, 4, 7, 8, 9]
  | .ct25k => [1, 3, 4, 6, 7, 8]

/-- The `message_number` column of `_read_header_line_1` (the 4th of the
keys `model_id, unit_id, software_version, message_number,
message_subclass`). -/
def messageNumbers (model : CeiloModel) (lines : List String) : List String :=
  lines.map (fun l => (splitString l (headerLine1Indices model)).getD 3 "")

/-- Decimal digit value, `none` for a non-digit. -/
def decDigit (c : Char) : Option ℕ :=
  if '0' ≤ c ∧ c ≤ '9' then some (c.toNat - '0'.toNat) else none

/-- Value of a nonempty all-digit character list. -/
def decValue (l : List Char) : Option ℕ :=
  match l with
  | [] => none
  | _ => l.foldlM (fun acc c => (decDigit c).map (fun d => 10 * acc + d)) 0

/-- Python `int(s)` on a string: surrounding whitespace stripped, optional
sign, nonempty digit run; `none` models the `ValueError` path.  (Digit-group
underscores are not modelled; no input in this pipeline contains them.) -/
def pyInt (s : String) : Option ℤ :=
  match (((s.toList.dropWhile Char.isWhitespace).reverse.dropWhile
      Char.isWhitespace).reverse) with
  | '-' :: rest => (decValue rest).map (fun n => -(n : ℤ))
  | '+' :: rest => (decValue rest).map (fun n => (n : ℤ))
  | l => (decValue l).map (fun n => (n : ℤ))

/-- Failure modes of `_get_message_number`: the `assert` on inconsistent
values (`AssertionError`), or `int()` failing on the common value. -/
inductive MsgNoError : Type
  | inconsistent
  | badInt
deriving DecidableEq, Repr

/-- Source: `_get_message_number`: `assert len(np.unique(msg_no)) == 1` — i.e. the
list is nonempty and all values equal — then `int(msg_no[0])`. -/
def getMessageNumber (msgNo : List String) : Except MsgNoError ℤ :=
  match msgNo with
  | [] => .error .inconsistent
  | x :: rest =>
    if rest.all (fun s => s = x) then
      match pyInt x with
      | some n => .ok n
      | none => .error .badInt
    else .error .inconsistent

/-! ### Metadata string coercion (`_convert_meta_strings`) -/

/-- A metadata field value before coercion: a collapsed scalar string or an
array of per-message strings. -/
inductive MetaValue : Type
  | scalar (s : String)
  | array (vs : List String)
deriving DecidableEq, Repr

/-- A possible array element after coercion: an integer where `int()`
succeeded, Python `None` where it raised (the preallocated placeholder is
kept), or — as the spec predicts but the code never produces — the original
string. -/
inductive MetaElem : Type
  | int (n : ℤ)
  | str (s : String)
  | nil
deriving DecidableEq, Repr

/-- Result of `_convert_meta_strings` on one field. -/
inductive ConvertedMeta : Type
  | scalarStr (s : String)
  | scalarInt (n : ℤ)
  | arr (es : List MetaElem)
  | fail
deriving DecidableEq, Repr

/-- Source: `int_variables = ('tilt_angle', 'message_number', 'scale')`. -/
def intVariables : List String := ["tilt_angle", "message_number", "scale"]

/-- The array branch of `_convert_meta_strings`: the field is replaced by
`[None] * len`, then each position is filled with `int(value)` where that
succeeds; positions where `int` raises keep `None` (`continue`). -/
def convertMetaArray (vs : List String) : List MetaElem :=
  vs.map (fun s =>
    match pyInt s with
    | some n => MetaElem.int n
    | none => MetaElem.nil)

/-- Source: `_convert_meta_strings` on one field: scalar strings are `int`-coerced
only for the named integer variables (`int` raising there is fatal); every
array-valued field goes through the element-wise coercion. -/
def convertMetaField (field : String) (v : MetaValue) : ConvertedMeta :=
  match v with
  | .scalar s =>
    if field ∈ intVariables then
      match pyInt s with
      | some n => .scalarInt n
      | none => .fail
    else .scalarStr s
  | .array vs => .arr (convertMetaArray vs)

/-! ### Range grid and the CT25k upper-part correction
(`_calc_range`, `Ct25k._range_correct_upper_part`) -/

/-- Source: `_calc_range` for `ct25k`: `np.arange(1, 257) * 30`. -/
def calcRangeCt25k : List ℚ :=
  (List.range 256).map (fun i => (((i + 1 : ℕ)) : ℚ) * 30)

/-- Source: `_calc_range` for the CL family:
`np.arange(1, n_gates + 1) * range_resolution`. -/
def calcRangeCl (nGates rangeResolution : ℕ) : List ℚ :=
  (List.range nGates).map (fun i => (((i + 1 : ℕ)) : ℚ) * (rangeResolution : ℚ))

/-- Source: `Ct25k._range_correct_upper_part`: the columns `j` with
`range[j] > 2400` (`ind = np.where(self.range > altitude_limit)`) are
multiplied by `(range[j] * M2KM) ** 2`; all other columns are untouched. -/
def rangeCorrectUpperPart (rng : List ℚ) (backscatter : Mat) : Mat :=
  backscatter.map (fun row =>
    mapIdxFrom (fun j b =>
      if 2400 < rng.getD j 0 then b * (rng.getD j 0 * m2km) ^ 2 else b) 0 row)

/-! ### Screening & correction engine
(`calc_beta`, `_screen_by_snr` and its helpers)

`np.std` / `np.var` over the slice `beta[:, -n_gates:]` are population
moments.  The slice takes the whole row when the row is shorter than
`n_gates` (all theorems use it that way or with the model constants). -/

/-- The last `n` entries of a list (`row[-n:]` for `n ≥ 1`). -/
def lastN (n : ℕ) (l : List ℚ) : List ℚ :=
  l.drop (l.length - n)

/-- Arithmetic mean (`0` for the empty list, where numpy would give nan —
never reached by the program). -/
def listMean (l : List ℚ) : ℚ := l.sum / (l.length : ℚ)

/-- Population variance `np.var` (square of `np.std`). -/
def popVar (l : List ℚ) : ℚ :=
  ((l.map (fun x => (x - listMean l) ^ 2)).sum) / (l.length : ℚ)

/-- Source: `noise_min = noise_min[0] if smooth else noise_min[1]`
(from `_screen_by_snr`). -/
def noiseFloor (p : NoiseParams) (smooth : Bool) : ℚ :=
  if smooth then p.noiseMin.1 else p.noiseMin.2

/-- First index of the maximum (`np.argmax`); `0` for the empty list. -/
def argmaxFrom : ℕ → ℕ → ℚ → List ℚ → ℕ
  | _, best, _, [] => best
  | i, best, bestV, x :: rest =>
    if bestV < x then argmaxFrom (i + 1) i x rest
    else argmaxFrom (i + 1) best bestV rest

/-- Source: `np.argmax` on a row. -/
def argmax : List ℚ → ℕ
  | [] => 0
  | x :: rest => argmaxFrom 1 0 x rest

/-- The saturated-profile pass of `_screen_by_snr`: from the profile's peak
onward, values below `saturation_noise` are zeroed
(`noise_indices = np.where(prof[peak_ind:] < saturation_noise)[0] + peak_ind`). -/
def satScreenRow (saturationNoise : ℚ) (row : List ℚ) : List ℚ :=
  mapIdxFrom (fun i b =>
    if argmax row ≤ i ∧ b < saturationNoise then 0 else b) 0 row

/-- The squared clamped noise estimate of one profile:
`noise_at_top = np.std(beta[:, -n_gates:])` floored at `noise_min`.
Carried as a square: `max(std, fl)^2 = max(var, fl^2)` since `0 ≤ fl`. -/
def noiseSq (p : NoiseParams) (smooth : Bool) (row : List ℚ) : ℚ :=
  max (popVar (lastN p.nGates row)) (noiseFloor p smooth ^ 2)

/-- One row of `_screen_by_snr`: the noise estimate is computed from the
incoming row, then the saturation pass runs (for flagged profiles), then
every value with `snr = value / noise < snr_lim` is zeroed.  Because
`noise > 0` and `snr_lim > 0` at every call site, `value / noise < snr_lim`
holds exactly when `value < 0` or `value ^ 2 < snr_lim ^ 2 * noise ^ 2`,
which is the squared form used here. -/
def screenRow (p : NoiseParams) (smooth : Bool) (snrLim : ℚ) (sat : Bool)
    (row : List ℚ) : List ℚ :=
  (if sat then satScreenRow p.saturationNoise row else row).map
    (fun b => if b < 0 ∨ b ^ 2 < snrLim ^ 2 * noiseSq p smooth row then 0 else b)

/-- Source: `_screen_by_snr` on a range-uncorrected matrix (default `snr_lim = 5`). -/
def screenBySnr (p : NoiseParams) (isSat : List Bool) (smooth : Bool)
    (beta : Mat) (snrLim : ℚ := 5) : Mat :=
  (beta.zip isSat).map (fun rs => screenRow p smooth snrLim rs.2 rs.1)

/-- Source: `_get_range_squared`: `(range * M2KM) ** 2`. -/
def getRangeSquared (rng : List ℚ) : List ℚ :=
  rng.map (fun r => (r * m2km) ^ 2)

/-- Source: `_uncorrect_range`: `beta / range_squared` (row-wise broadcast). -/
def uncorrectRange (beta : Mat) (rangeSquared : List ℚ) : Mat :=
  beta.map (fun row => List.zipWith (fun b r => b / r) row rangeSquared)

/-- Source: `_correct_range`: `beta * range_squared` (row-wise broadcast). -/
def correctRange (beta : Mat) (rangeSquared : List ℚ) : Mat :=
  beta.map (fun row => List.zipWith (fun b r => b * r) row rangeSquared)

/-- Source: `_find_saturated_profiles`:
`np.var(backscatter[:, -n_gates:], axis=1) < var_lim`. -/
def findSaturatedProfiles (p : NoiseParams) (backscatter : Mat) : List Bool :=
  backscatter.map (fun row => decide (popVar (lastN p.nGates row) < p.varLim))

/-- Source: `_screening_wrapper` from `calc_beta`: uncorrect range, screen by SNR,
recorrect range. -/
def screeningWrapper (p : NoiseParams) (rng : List ℚ) (isSat : List Bool)
    (smooth : Bool) (beta : Mat) : Mat :=
  correctRange (screenBySnr p isSat smooth (uncorrectRange beta (getRangeSquared rng)))
    (getRangeSquared rng)

/-- The first-pass (unsmoothed) screened output `beta` of `calc_beta`. -/
def betaFirstPass (p : NoiseParams) (rng : List ℚ) (backscatter : Mat) : Mat :=
  screeningWrapper p rng (findSaturatedProfiles p backscatter) false backscatter

/-! ### Helper lemmas on indexed list access -/

theorem getD_map_of_default {α β : Type} (f : α → β) (l : List α) (i : ℕ)
    (da : α) (db : β) (h : f da = db) :
    (l.map f).getD i db = f (l.getD i da) := by
  induction l generalizing i with
  | nil => simpa [List.getD] using h.symm
  | cons a rest ih =>
    cases i with
    | zero => rfl
    | succ n => simpa [List.getD] using ih n

theorem getD_zip_lt {α β : Type} (l : List α) (l' : List β) (i : ℕ)
    (da : α) (db : β) (h : i < l.length) (h' : i < l'.length) :
    (l.zip l').getD i (da, db) = (l.getD i da, l'.getD i db) := by
  induction l generalizing l' i with
  | nil => simp at h
  | cons a rest ih =>
    cases l' with
    | nil => simp at h'
    | cons b rest' =>
      cases i with
      | zero => rfl
      | succ n =>
        simp only [List.length_cons, Nat.succ_lt_succ_iff] at h h'
        simpa [List.getD] using ih rest' n h h'

theorem getD_zipWith_lt {α β γ : Type} (f : α → β → γ) (l : List α)
    (l' : List β) (i : ℕ) (da : α) (db : β) (dc : γ)
    (h : i < l.length) (h' : i < l'.length) :
    (List.zipWith f l l').getD i dc = f (l.getD i da) (l'.getD i db) := by
  induction l generalizing l' i with
  | nil => simp at h
  | cons a rest ih =>
    cases l' with
    | nil => simp at h'
    | cons b rest' =>
      cases i with
      | zero => rfl
      | succ n =>
        simp only [List.length_cons, Nat.succ_lt_succ_iff] at h h'
        simpa [List.getD] using ih rest' n h h'

theorem length_mapIdxFrom {α β : Type} (f : ℕ → α → β) (k : ℕ) (l : List α) :
    (mapIdxFrom f k l).length = l.length := by
  induction l generalizing k with
  | nil => rfl
  | cons a rest ih => simpa [mapIdxFrom] using ih (k + 1)

theorem getD_mapIdxFrom {α : Type} (f : ℕ → α → α) (k : ℕ) (l : List α)
    (i : ℕ) (d : α) (h : i < l.length) :
    (mapIdxFrom f k l).getD i d = f (k + i) (l.getD i d) := by
  induction l generalizing k i with
  | nil => simp at h
  | cons a rest ih =>
    cases i with
    | zero => rfl
    | succ n =>
      simp only [List.length_cons, Nat.succ_lt_succ_iff] at h
      have := ih (k + 1) n h
      simpa [mapIdxFrom, List.getD, Nat.add_assoc, Nat.add_comm 1 n] using this

theorem getD_range_map {β : Type} (f : ℕ → β) (n i : ℕ) (d : β) (h : i < n) :
    ((List.range n).map f).getD i d = f i := by
  rw [List.getD_eq_getElem?_getD, List.getElem?_map, List.getElem?_range h]
  rfl

/-! ### Structural lemmas about one screening row -/

theorem noiseSq_pos (p : NoiseParams) (smooth : Bool) (row : List ℚ)
    (hf : 0 < noiseFloor p smooth) : 0 < noiseSq p smooth row :=
  lt_of_lt_of_le (pow_pos hf 2) (le_max_right _ _)

theorem getD_satScreenRow_or (s : ℚ) (row : List ℚ) (j : ℕ) :
    (satScreenRow s row).getD j 0 = 0 ∨
      (satScreenRow s row).getD j 0 = row.getD j 0 := by
  by_cases h : j < row.length
  · rw [satScreenRow, getD_mapIdxFrom _ _ _ _ _ h]
    by_cases hc : argmax row ≤ 0 + j ∧ row.getD j 0 < s
    · exact Or.inl (if_pos hc)
    · exact Or.inr (if_neg hc)
  · have hlen : ¬ j < (satScreenRow s row).length := by
      rwa [satScreenRow, length_mapIdxFrom]
    rw [List.getD_eq_getElem?_getD, List.getElem?_eq_none (by omega),
      List.getD_eq_getElem?_getD row, List.getElem?_eq_none (by omega)]
    exact Or.inl rfl

theorem length_screenRow (p : NoiseParams) (smooth : Bool) (snrLim : ℚ)
    (sat : Bool) (row : List ℚ) :
    (screenRow p smooth snrLim sat row).length = row.length := by
  rw [screenRow, List.length_map]
  cases sat with
  | false => rfl
  | true => simp [satScreenRow, length_mapIdxFrom]

theorem getD_screenRow_or (p : NoiseParams) (smooth : Bool) (snrLim : ℚ)
    (sat : Bool) (row : List ℚ) (j : ℕ) :
    (screenRow p smooth snrLim sat row).getD j 0 = 0 ∨
      (screenRow p smooth snrLim sat row).getD j 0 = row.getD j 0 := by
  have hmask : ∀ b : ℚ,
      (if b < 0 ∨ b ^ 2 < snrLim ^ 2 * noiseSq p smooth row then (0 : ℚ) else b)
        = 0 ∨
      (if b < 0 ∨ b ^ 2 < snrLim ^ 2 * noiseSq p smooth row then (0 : ℚ) else b)
        = b := by
    intro b
    by_cases hc : b < 0 ∨ b ^ 2 < snrLim ^ 2 * noiseSq p smooth row
    · exact Or.inl (if_pos hc)
    · exact Or.inr (if_neg hc)
  rw [screenRow, getD_map_of_default _ _ _ 0 0 (by simp)]
  cases sat with
  | false => exact hmask _
  | true =>
    simp only [reduceIte]
    rcases getD_satScreenRow_or p.saturationNoise row j with h2 | h2
    · rw [h2]
      exact Or.inl (by simp)
    · rw [h2]
      exact hmask _

theorem getD_screenRow_zero (p : NoiseParams) (smooth : Bool) (snrLim : ℚ)
    (sat : Bool) (row : List ℚ) (j : ℕ)
    (hf : 0 < noiseFloor p smooth) (hL : 0 < snrLim)
    (h : row.getD j 0 = 0) :
    (screenRow p smooth snrLim sat row).getD j 0 = 0 := by
  have hpos : (0 : ℚ) < snrLim ^ 2 * noiseSq p smooth row :=
    mul_pos (pow_pos hL 2) (noiseSq_pos p smooth row hf)
  have hsat : (if sat then satScreenRow p.saturationNoise row else row).getD j 0
      = 0 := by
    cases sat with
    | false => exact h
    | true =>
      simp only [reduceIte]
      rcases getD_satScreenRow_or p.saturationNoise row j with h2 | h2
      · exact h2
      · rw [h2]
        exact h
  rw [screenRow, getD_map_of_default _ _ _ 0 0 (by simp), hsat]
  simp [hpos]

/-! ### Matrix-level access lemmas for the screening engine -/

theorem getD_eq_default_of_length_le {α : Type} (l : List α) (i : ℕ) (d : α)
    (h : l.length ≤ i) : l.getD i d = d := by
  rw [List.getD_eq_getElem?_getD, List.getElem?_eq_none h]
  rfl

theorem ent_eq_zero_of_length_le (m : Mat) (i j : ℕ) (h : m.length ≤ i) :
    ent m i j = 0 := by
  have hrow : m.getD i [] = [] := by
    rw [List.getD_eq_getElem?_getD, List.getElem?_eq_none h]
    rfl
  rw [ent, hrow]
  rfl

theorem length_screenBySnr (p : NoiseParams) (isSat : List Bool)
    (smooth : Bool) (beta : Mat) (snrLim : ℚ) :
    (screenBySnr p isSat smooth beta snrLim).length
      = min beta.length isSat.length := by
  rw [screenBySnr, List.length_map, List.length_zip]

theorem ent_screenBySnr (p : NoiseParams) (isSat : List Bool) (smooth : Bool)
    (beta : Mat) (snrLim : ℚ) (i j : ℕ)
    (hi : i < beta.length) (hi' : i < isSat.length) :
    ent (screenBySnr p isSat smooth beta snrLim) i j
      = (screenRow p smooth snrLim (isSat.getD i false) (beta.getD i [])).getD j 0 := by
  rw [ent, screenBySnr,
    getD_map_of_default _ _ _ ([], false) [] (by simp [screenRow, satScreenRow]),
    getD_zip_lt _ _ _ _ _ hi hi']

theorem getD_mem_of_lt {α : Type} (l : List α) (i : ℕ) (d : α)
    (h : i < l.length) : l.getD i d ∈ l := by
  rw [List.getD_eq_getElem?_getD, List.getElem?_eq_getElem h]
  simp

theorem int_zero_land (x : ℤ) : Int.land 0 x = 0 := by
  cases x <;> simp [Int.land, Nat.ldiff]

/-! ### Claim theorems -/

/-- C1: the spec says the unsmoothed screening pass floors the per-profile
noise estimate at the first element of the model's noise-floor pair (the
"minimum noise, raw" constant).  The code does the opposite:
`noise_min = noise_min[0] if smooth else noise_min[1]` applies the second
element (`2.9e-8` for the CL family) to the unsmoothed pass.  Evaluated at a
constant CL profile of `1e-7` (so the top-gate standard deviation is `0`):
the unsmoothed pass zeroes both bins, although the bin value is not below
`5 * max(std, raw floor) = 5 * 1.1e-8`, so under the spec's floor the bins
would survive. -/
theorem c1_unsmoothed_pass_applies_second_floor :
    noiseFloor clNoiseParams false = clNoiseParams.noiseMin.2
    ∧ screenBySnr clNoiseParams [false] false [[1 / 10 ^ 7, 1 / 10 ^ 7]] = [[0, 0]]
    ∧ ¬ ((1 / 10 ^ 7 : ℚ) < 5 * max 0 clNoiseParams.noiseMin.1) := by
  refine ⟨rfl, ?_, ?_⟩
  · norm_num [screenBySnr, screenRow, noiseSq, popVar, lastN, listMean,
      noiseFloor, clNoiseParams, satScreenRow, mapIdxFrom]
  · norm_num [clNoiseParams]

/-- C2 counterexample: a file whose model-detection substring is `"XX99"`
(not one of `CL01`, `CL02`, `CT02`) does not produce an unrecognized-model
error; `_find_ceilo_model` returns `None` and `_initialize_ceilo`
nevertheless returns a `Ct25k` session. -/
theorem c2_counterexample :
    ceiloHint ["a\n", "\n", "t\n", "zXX99rest\n"] = "XX99"
    ∧ findCeiloModel ["a\n", "\n", "t\n", "zXX99rest\n"] = none
    ∧ initializeCeilo ["a\n", "\n", "t\n", "zXX99rest\n"] = CeiloModel.ct25k := by
  refine ⟨by decide, by decide, by decide⟩

/-- C2 amended: for every input file whose model-detection substring (4
characters at offset 1 of the second line after the first blank line) is
neither `"CL01"` nor `"CL02"`, initializing the decode pipeline silently
selects the `ct25k` model — unrecognized signatures fall through to the
default; no error is raised. -/
theorem c2_unrecognized_hint_defaults_to_ct25k (lines : List String)
    (h1 : ceiloHint lines ≠ "CL01") (h2 : ceiloHint lines ≠ "CL02") :
    initializeCeilo lines = CeiloModel.ct25k := by
  rw [initializeCeilo, findCeiloModel, if_neg h1, if_neg h2]
  by_cases h3 : ceiloHint lines = "CT02"
  · rw [if_pos h3]
  · rw [if_neg h3]

theorem c2_witness :
    ceiloHint ["b\n", "\n", "t\n", "yQQ77data\n"] ≠ "CL01"
    ∧ ceiloHint ["b\n", "\n", "t\n", "yQQ77data\n"] ≠ "CL02"
    ∧ initializeCeilo ["b\n", "\n", "t\n", "yQQ77data\n"] = CeiloModel.ct25k :=
  ⟨by decide, by decide,
    c2_unrecognized_hint_defaults_to_ct25k _ (by decide) (by decide)⟩

/-- C3 counterexample: in an array-valued metadata field, an element that
`int()` cannot coerce is replaced by the preallocated `None`, not left as
its original string: `["12", "abc"]` becomes `[12, None]`, which differs
from the claim's `[12, "abc"]`. -/
theorem c3_counterexample :
    convertMetaField "laser_energy" (MetaValue.array ["12", "abc"])
      = ConvertedMeta.arr [MetaElem.int 12, MetaElem.nil]
    ∧ ConvertedMeta.arr [MetaElem.int 12, MetaElem.nil]
      ≠ ConvertedMeta.arr [MetaElem.int 12, MetaElem.str "abc"] := by
  refine ⟨by decide, by decide⟩

/-- C3 amended: for every metadata field that is an array (whatever its
name), each element that `int()` accepts is replaced by that integer and
each element that `int()` rejects is replaced by `None` (the original
string is dropped); the field itself never fails. -/
theorem c3_array_coercion (field : String) (vs : List String) (j : ℕ) :
    convertMetaField field (MetaValue.array vs) = ConvertedMeta.arr (convertMetaArray vs)
    ∧ convertMetaField field (MetaValue.array vs) ≠ ConvertedMeta.fail
    ∧ (convertMetaArray vs).length = vs.length
    ∧ ((convertMetaArray vs).getD j MetaElem.nil
        = match pyInt (vs.getD j "") with
          | some n => MetaElem.int n
          | none => MetaElem.nil) := by
  refine ⟨rfl, by simp [convertMetaField], by simp [convertMetaArray], ?_⟩
  rw [convertMetaArray, getD_map_of_default _ _ _ "" _ (by rfl)]

/-- C4 counterexample: with the claim's `n_chars = 4`, the single line
`"00001"` yields `int(5/4) = 1` gate, whose chunk is `"0000"`, so the
decoded backscatter is `0`, not `1e-8`. -/
theorem c4_counterexample :
    readBackscatter ⟨4, 524288, 1048576⟩ clScaleFactor ["00001"] = [[0]]
    ∧ (0 : ℚ) ≠ 1 / 10 ^ 8 := by
  have h : correctedProfiles ⟨4, 524288, 1048576⟩ ["00001"] = [[0]] := by decide
  refine ⟨?_, by norm_num⟩
  rw [readBackscatter, h]
  norm_num [clScaleFactor]

/-- C4 amended: with the cl51 family's actual `n_chars = 5` (and its mask
`524288`, scale `1e8`), the hex line `"00001"` decodes to the raw integer
`1`, the overflow bit is not set, and the backscatter is `1/1e8 = 1e-8`. -/
theorem c4_scenario_a :
    rawIntProfiles clHexParams ["00001"] = [[1]]
    ∧ Int.land 1 (clHexParams.mask : ℤ) = 0
    ∧ readBackscatter clHexParams clScaleFactor ["00001"] = [[1 / 10 ^ 8]] := by
  have h : correctedProfiles clHexParams ["00001"] = [[1]] := by decide
  refine ⟨by decide, by decide, ?_⟩
  rw [readBackscatter, h]
  norm_num [clScaleFactor]

/-- C5 counterexample: screening is not a projection.  For a CL session
with one unsaturated profile `[1.16e-7, 1.595e-7]` (range-uncorrected; the
range grid `[1000, 1000]` makes `range_squared = 1`, so the wrapper's
uncorrect/recorrect round trip is the identity), the first screening pass
zeroes only the first bin; re-running the same screening on the screened
field zeroes the surviving bin as well (the zeroed bin drags the top-gate
standard deviation above the floor), so the zero-mask grows. -/
theorem c5_counterexample :
    screeningWrapper clNoiseParams [1000, 1000] [false] false
        [[116 / 10 ^ 9, 319 / (2 * 10 ^ 9)]]
      = [[0, 319 / (2 * 10 ^ 9)]]
    ∧ screeningWrapper clNoiseParams [1000, 1000] [false] false
        [[0, 319 / (2 * 10 ^ 9)]]
      = [[0, 0]]
    ∧ ([[0, (319 : ℚ) / (2 * 10 ^ 9)]] : Mat) ≠ [[0, 0]] := by
  refine ⟨?_, ?_, ?_⟩
  · norm_num [screeningWrapper, getRangeSquared, uncorrectRange, correctRange,
      m2km, screenBySnr, screenRow, noiseSq, popVar, lastN, listMean,
      noiseFloor, clNoiseParams, satScreenRow, mapIdxFrom]
  · norm_num [screeningWrapper, getRangeSquared, uncorrectRange, correctRange,
      m2km, screenBySnr, screenRow, noiseSq, popVar, lastN, listMean,
      noiseFloor, clNoiseParams, satScreenRow, mapIdxFrom]
  · intro h
    have := congrArg (fun m => ent m 0 1) h
    norm_num [ent] at this

/-- C5 amended: re-running `_screen_by_snr` with the same noise parameters
and the same saturation flags preserves every bin that the first run zeroed
(the zero-mask is monotone non-decreasing under re-screening), but — as the
counterexample shows — it may zero additional bins, so the zero-mask need
not be reproduced exactly. -/
theorem c5_zero_mask_monotone (p : NoiseParams) (isSat : List Bool)
    (smooth : Bool) (beta : Mat) (i j : ℕ)
    (hf : 0 < noiseFloor p smooth)
    (h : ent (screenBySnr p isSat smooth beta) i j = 0) :
    ent (screenBySnr p isSat smooth (screenBySnr p isSat smooth beta)) i j = 0 := by
  by_cases hi : i < min beta.length isSat.length
  · have hi1 : i < beta.length := lt_of_lt_of_le hi (min_le_left _ _)
    have hi2 : i < isSat.length := lt_of_lt_of_le hi (min_le_right _ _)
    have hiS : i < (screenBySnr p isSat smooth beta 5).length := by
      rw [length_screenBySnr]
      exact hi
    rw [ent_screenBySnr _ _ _ _ _ _ _ hiS hi2]
    exact getD_screenRow_zero _ _ _ _ _ _ hf (by norm_num) h
  · apply ent_eq_zero_of_length_le
    rw [length_screenBySnr, length_screenBySnr]
    omega

theorem c5_witness :
    0 < noiseFloor clNoiseParams false
    ∧ ent (screenBySnr clNoiseParams [false] false
        [[116 / 10 ^ 9, 319 / (2 * 10 ^ 9)]]) 0 0 = 0
    ∧ ent (screenBySnr clNoiseParams [false] false
        (screenBySnr clNoiseParams [false] false
          [[116 / 10 ^ 9, 319 / (2 * 10 ^ 9)]])) 0 0 = 0 := by
  have h0 : ent (screenBySnr clNoiseParams [false] false
      [[116 / 10 ^ 9, 319 / (2 * 10 ^ 9)]]) 0 0 = 0 := by
    norm_num [ent, screenBySnr, screenRow, noiseSq, popVar, lastN, listMean,
      noiseFloor, clNoiseParams, satScreenRow, mapIdxFrom]
  exact ⟨by norm_num [noiseFloor, clNoiseParams], h0,
    c5_zero_mask_monotone clNoiseParams [false] false _ 0 0
      (by norm_num [noiseFloor, clNoiseParams]) h0⟩

/-- C6: for the ct25k model (its range grid is `arange(1, 257) * 30`), the
post-correction `_range_correct_upper_part` multiplies every bin whose
range-gate altitude exceeds 2400 m by `(altitude_km)^2` and leaves every
bin at altitude 2400 m or below unchanged, for every profile. -/
theorem c6_ct25k_upper_range_correction (beta : Mat) (i j : ℕ) (h : j < 256) :
    (2400 < calcRangeCt25k.getD j 0 →
      ent (rangeCorrectUpperPart calcRangeCt25k beta) i j
        = ent beta i j * (calcRangeCt25k.getD j 0 * m2km) ^ 2)
    ∧ (calcRangeCt25k.getD j 0 ≤ 2400 →
      ent (rangeCorrectUpperPart calcRangeCt25k beta) i j = ent beta i j) := by
  have hrow : ent (rangeCorrectUpperPart calcRangeCt25k beta) i j
      = (mapIdxFrom (fun k b =>
          if 2400 < calcRangeCt25k.getD k 0 then
            b * (calcRangeCt25k.getD k 0 * m2km) ^ 2 else b) 0
          (beta.getD i [])).getD j 0 := by
    rw [ent, rangeCorrectUpperPart, getD_map_of_default _ _ _ [] [] rfl]
  by_cases hj : j < (beta.getD i []).length
  · rw [hrow, getD_mapIdxFrom _ _ _ _ _ hj, Nat.zero_add]
    constructor
    · intro hgt
      rw [if_pos hgt]
      rfl
    · intro hle
      rw [if_neg (not_lt.mpr hle)]
      rfl
  · have h1 : ent (rangeCorrectUpperPart calcRangeCt25k beta) i j = 0 := by
      rw [hrow]
      apply getD_eq_default_of_length_le
      rw [length_mapIdxFrom]
      omega
    have h2 : ent beta i j = 0 :=
      getD_eq_default_of_length_le _ _ _ (by omega)
    rw [h1, h2]
    exact ⟨fun _ => by rw [zero_mul], fun _ => rfl⟩

theorem c6_witness :
    (80 : ℕ) < 256
    ∧ 2400 < calcRangeCt25k.getD 80 0
    ∧ calcRangeCt25k.getD 0 0 ≤ 2400
    ∧ ent (rangeCorrectUpperPart calcRangeCt25k [List.replicate 81 1]) 0 80
        = 1 * (calcRangeCt25k.getD 80 0 * m2km) ^ 2
    ∧ ent (rangeCorrectUpperPart calcRangeCt25k [List.replicate 81 1]) 0 0 = 1 := by
  have h80 : calcRangeCt25k.getD 80 0 = 2430 := by
    rw [calcRangeCt25k, getD_range_map _ _ _ _ (by norm_num)]
    norm_num
  have h0 : calcRangeCt25k.getD 0 0 = 30 := by
    rw [calcRangeCt25k, getD_range_map _ _ _ _ (by norm_num)]
    norm_num
  have hent80 : ent ([List.replicate 81 (1 : ℚ)] : Mat) 0 80 = 1 := by
    rw [ent]
    simp
  have hent0 : ent ([List.replicate 81 (1 : ℚ)] : Mat) 0 0 = 1 := by
    rw [ent]
    simp
  refine ⟨by norm_num, by rw [h80]; norm_num, by rw [h0]; norm_num, ?_, ?_⟩
  · rw [(c6_ct25k_upper_range_correction [List.replicate 81 1] 0 80
      (by norm_num)).1 (by rw [h80]; norm_num), hent80]
  · rw [(c6_ct25k_upper_range_correction [List.replicate 81 1] 0 0
      (by norm_num)).2 (by rw [h0]; norm_num), hent0]

/-- C7: for the cl31/cl51 family, `message_number` is the slice `[7:8]` of
each header line 1 (offsets `[1,3,4,7,8,9]`); when the values differ
between two messages, `_get_message_number` fails with the
inconsistent-message-number error (so no session is produced), and when all
values agree, it proceeds with the common value. -/
theorem c7_message_number_consistency (lines : List String) (h : lines ≠ []) :
    messageNumbers CeiloModel.cl31 lines = lines.map (fun l => strSlice l 7 8)
    ∧ ((∃ a ∈ messageNumbers CeiloModel.cl31 lines,
          a ≠ (messageNumbers CeiloModel.cl31 lines).headD "") →
        getMessageNumber (messageNumbers CeiloModel.cl31 lines)
          = Except.error MsgNoError.inconsistent)
    ∧ (∀ n : ℤ,
        (∀ a ∈ messageNumbers CeiloModel.cl31 lines,
          a = (messageNumbers CeiloModel.cl31 lines).headD "") →
        pyInt ((messageNumbers CeiloModel.cl31 lines).headD "") = some n →
        getMessageNumber (messageNumbers CeiloModel.cl31 lines) = Except.ok n) := by
  obtain ⟨m, rest, hms⟩ : ∃ m rest,
      messageNumbers CeiloModel.cl31 lines = m :: rest := by
    cases hl : messageNumbers CeiloModel.cl31 lines with
    | nil =>
      exfalso
      apply h
      have : lines.length = 0 := by
        have := congrArg List.length hl
        simpa [messageNumbers] using this
      exact List.length_eq_zero.mp this
    | cons a b => exact ⟨a, b, rfl⟩
  refine ⟨rfl, ?_, ?_⟩
  · rw [hms]
    rintro ⟨a, ha, hne⟩
    simp only [List.headD_cons] at hne
    have hfalse : rest.all (fun s => s = m) = false := by
      rcases List.mem_cons.mp ha with rfl | hmem
      · exact absurd rfl hne
      · rcases Bool.eq_false_or_eq_true (rest.all (fun s => s = m)) with ht | hf
        · exact absurd (of_decide_eq_true (List.all_eq_true.mp ht a hmem)) hne
        · exact hf
    rw [getMessageNumber]
    simp [hfalse]
  · intro n hall hint
    rw [hms] at hall hint ⊢
    simp only [List.headD_cons] at hall hint
    have htrue : rest.all (fun s => s = m) = true :=
      List.all_eq_true.mpr (fun s hs =>
        decide_eq_true (hall s (List.mem_cons_of_mem _ hs)))
    rw [getMessageNumber]
    simp [htrue, hint]

theorem c7_witness :
    getMessageNumber (messageNumbers CeiloModel.cl31 ["aaaaaaa2a", "aaaaaaa5a"])
      = Except.error MsgNoError.inconsistent
    ∧ getMessageNumber (messageNumbers CeiloModel.cl31 ["aaaaaaa2a", "aaaaaaa2a"])
      = Except.ok 2 :=
  ⟨(c7_message_number_consistency ["aaaaaaa2a", "aaaaaaa5a"] (by decide)).2.1
      (by decide),
    (c7_message_number_consistency ["aaaaaaa2a", "aaaaaaa2a"] (by decide)).2.2 2
      (by decide) (by decide)⟩

/-- C8: after hex parsing, exactly the raw integers whose bitwise AND with
the model's `overflow_mask` is nonzero are decreased by
`overflow_subtrahend` (strictly, since the subtrahend is positive); all
other values are unchanged; and the decoded backscatter equals the
corrected integer matrix divided elementwise by the scale factor. -/
theorem c8_overflow_and_scale (hp : HexParams) (scale : ℚ) (lines : List String)
    (i j : ℕ) (hsub : 0 < hp.sub) :
    (Int.land (entZ (rawIntProfiles hp lines) i j) (hp.mask : ℤ) ≠ 0 →
      entZ (correctedProfiles hp lines) i j
        = entZ (rawIntProfiles hp lines) i j - hp.sub
      ∧ entZ (correctedProfiles hp lines) i j
        < entZ (rawIntProfiles hp lines) i j)
    ∧ (Int.land (entZ (rawIntProfiles hp lines) i j) (hp.mask : ℤ) = 0 →
      entZ (correctedProfiles hp lines) i j = entZ (rawIntProfiles hp lines) i j)
    ∧ ent (readBackscatter hp scale lines) i j
        = (entZ (correctedProfiles hp lines) i j : ℚ) / scale := by
  have h0 : overflowCorrect hp 0 = 0 := by
    rw [overflowCorrect, if_neg]
    simp [int_zero_land]
  have hC : entZ (correctedProfiles hp lines) i j
      = overflowCorrect hp (entZ (rawIntProfiles hp lines) i j) := by
    rw [entZ, entZ, correctedProfiles, getD_map_of_default _ _ _ [] [] rfl,
      getD_map_of_default _ _ _ 0 0 h0]
  have hB : ent (readBackscatter hp scale lines) i j
      = (entZ (correctedProfiles hp lines) i j : ℚ) / scale := by
    rw [ent, entZ, readBackscatter, getD_map_of_default _ _ _ [] [] rfl,
      getD_map_of_default _ _ _ 0 0 (by rw [Int.cast_zero, zero_div])]
  refine ⟨?_, ?_, hB⟩
  · intro hflag
    rw [hC, overflowCorrect, if_pos hflag]
    exact ⟨rfl, sub_lt_self _ hsub⟩
  · intro hflag
    rw [hC, overflowCorrect, if_neg (by simp [hflag])]

theorem c8_witness :
    (0 : ℤ) < clHexParams.sub
    ∧ Int.land (entZ (rawIntProfiles clHexParams ["FFFFF"]) 0 0)
        (clHexParams.mask : ℤ) ≠ 0
    ∧ entZ (correctedProfiles clHexParams ["FFFFF"]) 0 0
        = entZ (rawIntProfiles clHexParams ["FFFFF"]) 0 0 - clHexParams.sub
    ∧ ent (readBackscatter clHexParams clScaleFactor ["FFFFF"]) 0 0
        = (entZ (correctedProfiles clHexParams ["FFFFF"]) 0 0 : ℚ) / clScaleFactor := by
  obtain ⟨h1, _, h3⟩ :=
    c8_overflow_and_scale clHexParams clScaleFactor ["FFFFF"] 0 0 (by decide)
  exact ⟨by decide, by decide, (h1 (by decide)).1, h3⟩

/-- C9: `_find_saturated_profiles` marks a profile saturated exactly when
the population variance of its last `n_gates` bins is strictly below the
model's saturation-variance-limit; a profile whose variance equals the
limit is not saturated. -/
theorem c9_saturation_strict (p : NoiseParams) (backscatter : Mat) (i : ℕ)
    (h : i < backscatter.length) :
    ((findSaturatedProfiles p backscatter).getD i false = true
      ↔ popVar (lastN p.nGates (backscatter.getD i [])) < p.varLim)
    ∧ (popVar (lastN p.nGates (backscatter.getD i [])) = p.varLim →
      (findSaturatedProfiles p backscatter).getD i false = false) := by
  have hget : (findSaturatedProfiles p backscatter).getD i false
      = decide (popVar (lastN p.nGates (backscatter.getD i [])) < p.varLim) := by
    rw [findSaturatedProfiles, List.getD_eq_getElem?_getD, List.getElem?_map,
      List.getElem?_eq_getElem h,
      List.getD_eq_getElem?_getD backscatter i [], List.getElem?_eq_getElem h]
    rfl
  constructor
  · rw [hget]
    exact decide_eq_true_iff
  · intro heq
    rw [hget]
    exact decide_eq_false (by rw [heq]; exact lt_irrefl _)

theorem c9_witness :
    (0 : ℕ) < 2 ∧ (1 : ℕ) < 2
    ∧ (findSaturatedProfiles clNoiseParams [[0, 0, 0], [1, 2, 300]]).getD 0 false
        = true
    ∧ (findSaturatedProfiles clNoiseParams [[0, 0, 0], [1, 2, 300]]).getD 1 false
        = false := by
  have hrow0 : (([[0, 0, 0], [1, 2, 300]] : Mat)).getD 0 [] = [0, 0, 0] := rfl
  have hrow1 : (([[0, 0, 0], [1, 2, 300]] : Mat)).getD 1 [] = [1, 2, 300] := rfl
  refine ⟨by norm_num, by norm_num, ?_, ?_⟩
  · exact (c9_saturation_strict clNoiseParams [[0, 0, 0], [1, 2, 300]] 0
      (by norm_num)).1.mpr
      (by rw [hrow0]; norm_num [popVar, lastN, listMean, clNoiseParams])
  · have hiff := (c9_saturation_strict clNoiseParams [[0, 0, 0], [1, 2, 300]] 1
      (by norm_num)).1
    have hnot : ¬ popVar (lastN clNoiseParams.nGates
        (([[0, 0, 0], [1, 2, 300]] : Mat).getD 1 [])) < clNoiseParams.varLim := by
      rw [hrow1]
      norm_num [popVar, lastN, listMean, clNoiseParams]
    exact Bool.eq_false_iff.mpr (fun ht => hnot (hiff.mp ht))

/-- C10: for every session whose range gates are all strictly positive,
each entry of the first-pass (unsmoothed) screened output of `calc_beta`
is, in exact arithmetic, either `0` or equal to the corresponding entry of
the raw backscatter: the uncorrect / screen / recorrect pipeline only
zeroes bins, it never rescales a surviving bin. -/
theorem c10_first_pass_zero_or_unchanged (p : NoiseParams) (rng : List ℚ)
    (backscatter : Mat) (i j : ℕ) (hr : ∀ r ∈ rng, 0 < r) :
    ent (betaFirstPass p rng backscatter) i j = 0
    ∨ ent (betaFirstPass p rng backscatter) i j = ent backscatter i j := by
  have hBF : betaFirstPass p rng backscatter
      = correctRange (screenBySnr p (findSaturatedProfiles p backscatter) false
          (uncorrectRange backscatter (getRangeSquared rng)) 5)
          (getRangeSquared rng) := rfl
  set rsq := getRangeSquared rng with hrsq
  set sat := findSaturatedProfiles p backscatter with hsatdef
  set U := uncorrectRange backscatter rsq with hUdef
  set S := screenBySnr p sat false U 5 with hSdef
  have hlsat : sat.length = backscatter.length := by
    rw [hsatdef, findSaturatedProfiles, List.length_map]
  have hlU : U.length = backscatter.length := by
    rw [hUdef, uncorrectRange, List.length_map]
  have hlS : S.length = backscatter.length := by
    rw [hSdef, length_screenBySnr, hlU, hlsat, min_self]
  have hlrsq : rsq.length = rng.length := by
    rw [hrsq, getRangeSquared, List.length_map]
  by_cases hi : i < backscatter.length
  · have hrowC : ent (correctRange S rsq) i j
        = (List.zipWith (fun b r => b * r) (S.getD i []) rsq).getD j 0 := by
      rw [ent, correctRange, getD_map_of_default _ _ _ [] [] rfl]
    have hrowS : S.getD i []
        = screenRow p false 5 (sat.getD i false) (U.getD i []) := by
      rw [hSdef, screenBySnr,
        getD_map_of_default _ _ _ ([], false) [] (by simp [screenRow, satScreenRow]),
        getD_zip_lt _ _ _ _ _ (by omega) (by omega)]
    have hrowU : U.getD i []
        = List.zipWith (fun b r => b / r) (backscatter.getD i []) rsq := by
      rw [hUdef, uncorrectRange, getD_map_of_default _ _ _ [] [] rfl]
    by_cases hj : j < min (S.getD i []).length rsq.length
    · have hjS := (lt_min_iff.mp hj).1
      have hjR := (lt_min_iff.mp hj).2
      have hlSU : (S.getD i []).length = (U.getD i []).length := by
        rw [hrowS, length_screenRow]
      have hlUrow : (U.getD i []).length
          = min (backscatter.getD i []).length rsq.length := by
        rw [hrowU, List.length_zipWith]
      have hjB : j < (backscatter.getD i []).length := by omega
      rw [hBF, hrowC, getD_zipWith_lt _ _ _ _ 0 0 0 hjS hjR]
      have hrpos : 0 < rsq.getD j 0 := by
        have hrval : rsq.getD j 0 = (rng.getD j 0 * m2km) ^ 2 := by
          rw [hrsq, getRangeSquared, getD_map_of_default _ _ _ 0 0 (by norm_num)]
        have hmem : rng.getD j 0 ∈ rng := getD_mem_of_lt _ _ _ (by omega)
        rw [hrval]
        exact pow_pos (mul_pos (hr _ hmem) (by norm_num [m2km])) 2
      rcases getD_screenRow_or p false 5 (sat.getD i false) (U.getD i []) j
        with h0 | hkeep
      · left
        rw [hrowS, h0, zero_mul]
      · right
        rw [hrowS, hkeep, hrowU, getD_zipWith_lt _ _ _ _ 0 0 0 hjB hjR,
          div_mul_cancel₀ _ (ne_of_gt hrpos)]
        rfl
    · left
      rw [hBF, hrowC]
      apply getD_eq_default_of_length_le
      rw [List.length_zipWith]
      omega
  · left
    rw [hBF]
    apply ent_eq_zero_of_length_le
    rw [correctRange, List.length_map]
    omega

theorem c10_witness :
    (∀ r ∈ ([1000, 2000] : List ℚ), 0 < r)
    ∧ (ent (betaFirstPass clNoiseParams [1000, 2000] [[5, 7]]) 0 0 = 0
      ∨ ent (betaFirstPass clNoiseParams [1000, 2000] [[5, 7]]) 0 0
          = ent [[5, 7]] 0 0) := by
  have hr : ∀ r ∈ ([1000, 2000] : List ℚ), 0 < r := by
    intro r hrm
    rcases List.mem_cons.mp hrm with rfl | hrm
    · norm_num
    · rcases List.mem_cons.mp hrm with rfl | hrm
      · norm_num
      · simp at hrm
  exact ⟨hr,
    c10_first_pass_zero_or_unchanged clNoiseParams [1000, 2000] [[5, 7]] 0 0 hr⟩

end Ceilo
